import Mathlib

/-!
Shallow embedding of the bitly URL-shortener (Go, MongoDB) for verification.

Layers embedded, mirroring the repository:
- domain types and error strings (internal/domain);
- the MongoDB repository (the clean variant of the repository file, which
  carries the duplicate-key fix; internal/repository/mongo.go is a corrupted
  duplicate of the same file and does not compile);
- the shortener service (internal/service/shortner.go).

Modelling conventions:
- Go error values created by errors.New are compared by errors.Is using
  pointer identity (an errorString has no Is or Unwrap method), so an error
  is modelled as its message together with a unique allocation id, and every
  call to errors.New draws a fresh id from an allocation counter threaded
  through the state.
- The MongoDB collection is a list of documents in insertion order; FindOne
  returns the first match, UpdateOne and DeleteOne affect the first match.
  The only unique index is the one ensureIndexes creates on shortCode (the
  malformed bson tag on the ID field means the ID is stored under a plain
  field name, not under the indexed _id), so InsertOne fails with a
  duplicate-key write error exactly when the new shortCode is already
  present, and that duplicate-key message names the shortCode index.
- Driver-level failures (network, timeout) are nondeterministic, so each
  repository call takes an optional fault: none means the driver behaves
  per the store semantics, some msg means the call fails with an opaque
  driver error carrying that message.
- time.Now values and rand.Intn outcomes are oracles passed as parameters;
  rand.Intn n is guaranteed to lie in [0, n), modelled by reducing mod n.
-/

namespace Bitly

/-! ## Domain layer (internal/domain) -/

namespace Domain

def ErrNotFound : String := "Short code not found"

def ErrInvalidURL : String := "Invalid URL provided. Must be a valid http or https link."

def ErrConflict : String := "URL already shortened"

/-- The domain.URL document. Timestamps are modelled as naturals
(nanoseconds); the Go zero value of time.Time is modelled as 0. -/
structure URL where
  id : String
  url : String
  shortCode : String
  createdAt : Nat
  updatedAt : Nat
  accessCount : Int
deriving DecidableEq, Repr

/-- The Go zero value domain.URL given back on error paths. -/
def URL.empty : URL := ⟨"", "", "", 0, 0, 0⟩

end Domain

/-! ## Go error identity

An errors.New value is a fresh heap pointer; errors.Is against a target with
no Is or Unwrap method reduces to pointer equality of interface values.
Two errors.New results are therefore never equal, even with equal messages. -/

structure GoErr where
  msg : String
  allocId : Nat
deriving DecidableEq, Repr

/-- Global state: the MongoDB collection plus the allocation counter that
hands out error identities. -/
structure St where
  store : List Domain.URL
  cnt : Nat
deriving DecidableEq, Repr

/-- errors.New: allocates a fresh error value. -/
def errorsNew (msg : String) (st : St) : GoErr × St :=
  (⟨msg, st.cnt⟩, ⟨st.store, st.cnt + 1⟩)

/-- errors.Is for targets built by errors.New: pointer identity. -/
def errorsIs (e target : GoErr) : Bool :=
  e.allocId == target.allocId

/-! ## Model of net/url ParseRequestURI (Go standard library), restricted to
the scheme and host fields, which are the only fields isValidURL reads.
Failure reasons are collapsed to Unit since only nil-ness of the error is
observed. IPv6 zone identifiers inside bracketed hosts are not decoded
separately (Go unescapes the zone with a slightly different table); no
claim depends on bracketed hosts. -/

namespace GoNetUrl

def isUpper (c : Char) : Bool := 'A' ≤ c && c ≤ 'Z'

def isLower (c : Char) : Bool := 'a' ≤ c && c ≤ 'z'

def isDigitChar (c : Char) : Bool := '0' ≤ c && c ≤ '9'

def asciiLower (c : Char) : Char :=
  if isUpper c then Char.ofNat (c.toNat + 32) else c

def isHexChar (c : Char) : Bool :=
  isDigitChar c || ('a' ≤ c && c ≤ 'f') || ('A' ≤ c && c ≤ 'F')

def hexVal (c : Char) : Nat :=
  if isDigitChar c then c.toNat - 48
  else if 'a' ≤ c && c ≤ 'f' then c.toNat - 87
  else c.toNat - 55

/-- Scheme characters after the first: ALPHA / DIGIT / plus / minus / dot. -/
def isSchemeTail (c : Char) : Bool :=
  isDigitChar c || c = '+' || c = '-' || c = '.'

/-- getScheme from net/url: scans for the first colon terminating a valid
scheme. Returns (scheme, rest); an empty scheme means the raw string is the
rest. Errors (Unit) exactly when the string starts with a colon. -/
def getSchemeFrom (orig : List Char) : Nat → List Char → Except Unit (List Char × List Char)
  | _, [] => .ok ([], orig)
  | i, c :: rest =>
    if isUpper c || isLower c then getSchemeFrom orig (i + 1) rest
    else if isSchemeTail c then
      if i == 0 then .ok ([], orig) else getSchemeFrom orig (i + 1) rest
    else if c = ':' then
      if i == 0 then .error () else .ok (orig.take i, orig.drop (i + 1))
    else .ok ([], orig)

def getScheme (s : List Char) : Except Unit (List Char × List Char) :=
  getSchemeFrom s 0 s

/-- Query cutting in parse: a lone trailing question mark sets ForceQuery,
otherwise the string is cut at the first question mark; only the part before
the query matters here. -/
def cutQuery (rest : List Char) : List Char :=
  if rest.getLast? = some '?' && !(rest.dropLast.contains '?') then rest.dropLast
  else rest.takeWhile (fun c => c ≠ '?')

/-- splitAtLast sep l returns the parts strictly before and after the last
occurrence of sep, or none if sep does not occur. -/
def splitAtLast (sep : Char) : List Char → Option (List Char × List Char)
  | [] => none
  | c :: rest =>
    match splitAtLast sep rest with
    | some (pre, post) => some (c :: pre, post)
    | none => if c = sep then some ([], rest) else none

/-- validOptionalPort from net/url. -/
def validOptionalPort (p : List Char) : Bool :=
  match p with
  | [] => true
  | ':' :: digits => digits.all isDigitChar
  | _ => false

/-- shouldEscape in host mode: false for the characters a host may contain
verbatim. -/
def hostAllowedChar (c : Char) : Bool :=
  isUpper c || isLower c || isDigitChar c ||
  c = '-' || c = '_' || c = '.' || c = '~' ||
  c = '!' || c = '$' || c = '&' || c = Char.ofNat 39 ||
  c = '(' || c = ')' || c = '*' || c = '+' || c = ',' || c = ';' || c = '=' ||
  c = ':' || c = '[' || c = ']' || c = '<' || c = '>' || c = Char.ofNat 34

/-- unescape in host mode: percent escapes must be two hex digits and,
below 0x80, only the escape for the percent sign itself is allowed; an
unescaped ASCII character must be in the allowed host set. -/
def unescapeHost : List Char → Except Unit (List Char)
  | [] => .ok []
  | '%' :: rest =>
    match rest with
    | a :: b :: rest2 =>
      if isHexChar a && isHexChar b then
        if hexVal a < 8 && !(a = '2' && b = '5') then .error ()
        else
          match unescapeHost rest2 with
          | .ok t => .ok (Char.ofNat (hexVal a * 16 + hexVal b) :: t)
          | .error e => .error e
      else .error ()
    | _ => .error ()
  | c :: rest =>
    if c.toNat < 128 && !hostAllowedChar c then .error ()
    else
      match unescapeHost rest with
      | .ok t => .ok (c :: t)
      | .error e => .error e

/-- parseHost from net/url: validates an optional port after the last colon
(or after the closing bracket of a bracketed host) and unescapes the host. -/
def parseHost (host : List Char) : Except Unit (List Char) :=
  if host.head? = some '[' then
    match splitAtLast ']' host with
    | none => .error ()
    | some (_, post) =>
      if validOptionalPort post then unescapeHost host else .error ()
  else
    match splitAtLast ':' host with
    | some (_, post) =>
      if validOptionalPort (':' :: post) then unescapeHost host else .error ()
    | none => unescapeHost host

/-- validUserinfo from net/url. -/
def validUserinfoChar (c : Char) : Bool :=
  isUpper c || isLower c || isDigitChar c ||
  c = '-' || c = '.' || c = '_' || c = ':' || c = '~' || c = '!' || c = '$' ||
  c = '&' || c = Char.ofNat 39 || c = '(' || c = ')' || c = '*' || c = '+' ||
  c = ',' || c = ';' || c = '=' || c = '%' || c = '@'

/-- Percent-escape well-formedness used by unescape in path and userinfo
modes, where it is the only source of errors. -/
def validPercent : List Char → Bool
  | [] => true
  | '%' :: rest =>
    match rest with
    | a :: b :: rest2 => isHexChar a && isHexChar b && validPercent rest2
    | _ => false
  | _ :: rest => validPercent rest

/-- parseAuthority from net/url: split userinfo at the last at-sign,
validate it, parse the host part. Only the host is returned. -/
def parseAuthority (authority : List Char) : Except Unit (List Char) :=
  match splitAtLast '@' authority with
  | none => parseHost authority
  | some (userinfo, hostPart) =>
    match parseHost hostPart with
    | .error e => .error e
    | .ok h =>
      if userinfo.all validUserinfoChar && validPercent userinfo then .ok h
      else .error ()

/-- Result of parsing, restricted to the fields isValidURL reads. -/
structure GoURL where
  scheme : String
  host : String
deriving DecidableEq, Repr

/-- url.ParseRequestURI: parse in viaRequest mode, so the input must be an
absolute URI or an absolute path. -/
def parseRequestURI (rawURL : String) : Except Unit GoURL :=
  let s := rawURL.toList
  if s.any (fun c => c.toNat < 32 || c.toNat == 127) then .error ()
  else if s.isEmpty then .error ()
  else if s = ['*'] then .ok ⟨"", ""⟩
  else
    match getScheme s with
    | .error e => .error e
    | .ok (schemeChars, afterScheme) =>
      let scheme := String.mk (schemeChars.map asciiLower)
      let rest := cutQuery afterScheme
      if rest.head? ≠ some '/' then
        if schemeChars ≠ [] then .ok ⟨scheme, ""⟩ else .error ()
      else
        if schemeChars ≠ [] && rest.take 2 = ['/', '/'] then
          let authority := (rest.drop 2).takeWhile (fun c => c ≠ '/')
          let pathPart := (rest.drop 2).dropWhile (fun c => c ≠ '/')
          match parseAuthority authority with
          | .error e => .error e
          | .ok host =>
            if validPercent pathPart then .ok ⟨scheme, String.mk host⟩
            else .error ()
        else
          if validPercent rest then .ok ⟨scheme, ""⟩ else .error ()

end GoNetUrl

/-! ## Service constants and helpers (internal/service/shortner.go) -/

def ShortCodeLength : Nat := 6

def ShortCodeChars : String :=
  "abcdefghijklmnopqrstuvwxyzABCDEFGHIJKLMNOPQRSTUVWXYZ0123456789"

def MaxRetries : Nat := 5

/-- generateShortCode: six characters indexed into ShortCodeChars by
rand.Intn outcomes; rands i is the i-th rand.Intn call of this invocation,
reduced mod the alphabet size per the rand.Intn range contract. -/
def generateShortCode (rands : Nat → Nat) : String :=
  String.mk ((List.range ShortCodeLength).map
    (fun i => ShortCodeChars.toList.getD (rands i % ShortCodeChars.length) 'a'))

/-- isValidURL: url.ParseRequestURI must succeed, the host must be
non-empty, and the scheme must be http or https. -/
def isValidURL (longURL : String) : Bool :=
  match GoNetUrl.parseRequestURI longURL with
  | .error _ => false
  | .ok u => !(u.host == "") && (u.scheme == "http" || u.scheme == "https")

/-! ## Repository layer (the clean repository variant) -/

namespace Repo

/-- Update the first element satisfying p. MongoDB UpdateOne and
FindOneAndUpdate without a sort affect the first matching document. -/
def updateFirst (p : Domain.URL → Bool) (f : Domain.URL → Domain.URL) :
    List Domain.URL → List Domain.URL
  | [] => []
  | u :: rest => if p u then f u :: rest else u :: updateFirst p f rest

/-- Remove the first element satisfying p, as MongoDB DeleteOne does. -/
def removeFirst (p : Domain.URL → Bool) : List Domain.URL → List Domain.URL
  | [] => []
  | u :: rest => if p u then rest else u :: removeFirst p rest

/-- FindByShortCode: FindOne on the shortCode filter; ErrNoDocuments is
wrapped as a fresh ErrNotFound, other driver errors propagate. -/
def FindByShortCode (shortCode : String) (fault : Option String) (st : St) :
    Except GoErr Domain.URL × St :=
  match fault with
  | some m =>
    let (e, st2) := errorsNew m st
    (.error e, st2)
  | none =>
    match st.store.find? (fun u => u.shortCode == shortCode) with
    | some u => (.ok u, st)
    | none =>
      let (e, st2) := errorsNew Domain.ErrNotFound st
      (.error e, st2)

/-- FindByOriginalURL: FindOne on the url filter, same error wrapping. -/
def FindByOriginalURL (originalURL : String) (fault : Option String) (st : St) :
    Except GoErr Domain.URL × St :=
  match fault with
  | some m =>
    let (e, st2) := errorsNew m st
    (.error e, st2)
  | none =>
    match st.store.find? (fun u => u.url == originalURL) with
    | some u => (.ok u, st)
    | none =>
      let (e, st2) := errorsNew Domain.ErrNotFound st
      (.error e, st2)

/-- Save: stamps createdAt and updatedAt with the two time.Now calls, then
InsertOne. A duplicate key on the unique shortCode index yields a write
error whose message names shortCode, which the repository maps to a fresh
ErrConflict; any other driver error propagates. -/
def Save (u : Domain.URL) (nowC nowU : Nat) (fault : Option String) (st : St) :
    Except GoErr Domain.URL × St :=
  let u2 := { u with createdAt := nowC, updatedAt := nowU }
  match fault with
  | some m =>
    let (e, st2) := errorsNew m st
    (.error e, st2)
  | none =>
    if st.store.any (fun v => v.shortCode == u2.shortCode) then
      let (e, st2) := errorsNew Domain.ErrConflict st
      (.error e, st2)
    else
      (.ok u2, ⟨st.store ++ [u2], st.cnt⟩)

/-- Update: FindOneAndUpdate sets url and updatedAt on the first matching
document and decodes the pre-update snapshot; the repository then overwrites
url and updatedAt on the returned struct with the new value and a fresh
time.Now before returning it. -/
def Update (shortCode newURL : String) (nowSet now2 : Nat) (fault : Option String)
    (st : St) : Except GoErr Domain.URL × St :=
  match fault with
  | some m =>
    let (e, st2) := errorsNew m st
    (.error e, st2)
  | none =>
    match st.store.find? (fun u => u.shortCode == shortCode) with
    | none =>
      let (e, st2) := errorsNew Domain.ErrNotFound st
      (.error e, st2)
    | some old =>
      let store2 := updateFirst (fun u => u.shortCode == shortCode)
        (fun u => { u with url := newURL, updatedAt := nowSet }) st.store
      (.ok { old with url := newURL, updatedAt := now2 }, ⟨store2, st.cnt⟩)

/-- IncrementAccessCount: UpdateOne with an atomic increment; a zero
matched count becomes a fresh ErrNotFound. -/
def IncrementAccessCount (shortCode : String) (fault : Option String) (st : St) :
    Option GoErr × St :=
  match fault with
  | some m =>
    let (e, st2) := errorsNew m st
    (some e, st2)
  | none =>
    if st.store.any (fun u => u.shortCode == shortCode) then
      (none, ⟨updateFirst (fun u => u.shortCode == shortCode)
        (fun u => { u with accessCount := u.accessCount + 1 }) st.store, st.cnt⟩)
    else
      let (e, st2) := errorsNew Domain.ErrNotFound st
      (some e, st2)

/-- Delete: DeleteOne; a zero deleted count becomes a fresh ErrNotFound. -/
def Delete (shortCode : String) (fault : Option String) (st : St) :
    Option GoErr × St :=
  match fault with
  | some m =>
    let (e, st2) := errorsNew m st
    (some e, st2)
  | none =>
    if st.store.any (fun u => u.shortCode == shortCode) then
      (none, ⟨removeFirst (fun u => u.shortCode == shortCode) st.store, st.cnt⟩)
    else
      let (e, st2) := errorsNew Domain.ErrNotFound st
      (some e, st2)

end Repo

/-! ## Service layer (internal/service/shortner.go) -/

namespace Service

/-- Which repository operations a service call performed, in order. -/
inductive RepoCall where
  | find
  | save
  | update
  | incr
  | get
  | delete
deriving DecidableEq, Repr

/-- Result of a service operation returning (domain.URL, error) in Go,
together with the final state and the repository calls made. -/
structure SvcRes where
  url : Domain.URL
  err : Option GoErr
  st : St
  calls : List RepoCall
deriving DecidableEq, Repr

/-- Per-attempt oracle for one iteration of the Create loop: the rand.Intn
outcomes of generateShortCode, the time.Now().UnixNano() used for the ID,
the two time.Now calls made inside Save, and the optional driver fault of
the InsertOne. -/
structure AttemptEnv where
  rands : Nat → Nat
  idNano : Nat
  nowC : Nat
  nowU : Nat
  saveFault : Option String

/-- The document a Create attempt builds before calling Save: the ID is the
decimal print of time.Now().UnixNano(), the code comes from
generateShortCode, the access count is zero and the timestamps are the Go
zero value (Save overwrites them). -/
def candidate (longURL : String) (a : AttemptEnv) : Domain.URL :=
  { id := toString a.idNano, url := longURL, shortCode := generateShortCode a.rands,
    createdAt := 0, updatedAt := 0, accessCount := 0 }

/-- The exhausted-retries message of Create. -/
def exhaustedMsg : String :=
  "failed to generate unique short code after multiple attempts"

/-- The body of the Create retry loop: for i := 0; i < MaxRetries; i++,
written with the remaining iteration count as structural fuel (remaining =
MaxRetries - i). On a Save error the service compares the error against a
fresh errors.New(ErrConflict) via errors.Is and retries on a match,
otherwise returns the error; after the loop it returns the exhausted-retries
error. -/
def createLoop (longURL : String) (env : Nat → AttemptEnv) :
    Nat → Nat → St → List RepoCall → SvcRes
  | 0, _, st, calls =>
    let (e, st2) := errorsNew exhaustedMsg st
    ⟨Domain.URL.empty, some e, st2, calls⟩
  | remaining + 1, i, st, calls =>
    let a := env i
    let newURL := candidate longURL a
    match Repo.Save newURL a.nowC a.nowU a.saveFault st with
    | (.ok saved, st2) => ⟨saved, none, st2, calls ++ [.save]⟩
    | (.error e, st2) =>
      let (target, st3) := errorsNew Domain.ErrConflict st2
      if errorsIs e target then
        createLoop longURL env remaining (i + 1) st3 (calls ++ [.save])
      else
        ⟨Domain.URL.empty, some e, st3, calls ++ [.save]⟩

/-- Create: validate, duplicate-check by original URL (any lookup error at
all, not only NotFound, is treated as no existing mapping), then the
bounded insertion loop. -/
def Create (longURL : String) (findFault : Option String) (env : Nat → AttemptEnv)
    (st : St) : SvcRes :=
  if isValidURL longURL then
    match Repo.FindByOriginalURL longURL findFault st with
    | (.ok existing, st2) =>
      let (e, st3) := errorsNew Domain.ErrConflict st2
      ⟨existing, some e, st3, [.find]⟩
    | (.error _, st2) => createLoop longURL env MaxRetries 0 st2 [.find]
  else
    let (e, st2) := errorsNew Domain.ErrInvalidURL st
    ⟨Domain.URL.empty, some e, st2, []⟩

/-- Get: a pure delegation to FindByShortCode. -/
def Get (shortCode : String) (fault : Option String) (st : St) : SvcRes :=
  match Repo.FindByShortCode shortCode fault st with
  | (.ok u, st2) => ⟨u, none, st2, [.get]⟩
  | (.error e, st2) => ⟨Domain.URL.empty, some e, st2, [.get]⟩

/-- Update: validate the new URL exactly as Create does, then delegate to
the repository. -/
def Update (shortCode newURL : String) (fault : Option String) (nowSet now2 : Nat)
    (st : St) : SvcRes :=
  if isValidURL newURL then
    match Repo.Update shortCode newURL nowSet now2 fault st with
    | (.ok u, st2) => ⟨u, none, st2, [.update]⟩
    | (.error e, st2) => ⟨Domain.URL.empty, some e, st2, [.update]⟩
  else
    let (e, st2) := errorsNew Domain.ErrInvalidURL st
    ⟨Domain.URL.empty, some e, st2, []⟩

/-- Delete: a pure delegation to the repository. -/
def Delete (shortCode : String) (fault : Option String) (st : St) :
    Option GoErr × St :=
  Repo.Delete shortCode fault st

/-- GetStats: identical to Get, a pure delegation to FindByShortCode. -/
def GetStats (shortCode : String) (fault : Option String) (st : St) : SvcRes :=
  match Repo.FindByShortCode shortCode fault st with
  | (.ok u, st2) => ⟨u, none, st2, [.get]⟩
  | (.error e, st2) => ⟨Domain.URL.empty, some e, st2, [.get]⟩

/-- Result of Redirect: the string returned to the caller, the error, and
the state once the detached increment goroutine has (eventually) run. -/
structure RedirectRes where
  longURL : String
  err : Option GoErr
  st : St
deriving DecidableEq, Repr

/-- Redirect: look up the mapping, propagating any error; on success the
long URL is returned immediately and the access-count increment runs as a
detached goroutine whose error is only logged. The returned value is fixed
before the increment runs; the final state reflects the increment. -/
def Redirect (shortCode : String) (findFault incrFault : Option String) (st : St) :
    RedirectRes :=
  match Repo.FindByShortCode shortCode findFault st with
  | (.error e, st2) => ⟨"", some e, st2⟩
  | (.ok u, st2) =>
    let (_, st3) := Repo.IncrementAccessCount shortCode incrFault st2
    ⟨u.url, none, st3⟩

/-- A service result carries an error whose message is m. -/
def SvcRes.failsWith (r : SvcRes) (m : String) : Prop :=
  ∃ e, r.err = some e ∧ e.msg = m

end Service

/-! ## Invariant vocabulary -/

/-- The short codes of a collection, in order. -/
def codesOf (l : List Domain.URL) : List String :=
  l.map (fun u => u.shortCode)

/-- The storage invariant behind the unique index: no two persisted
documents share a short code. -/
def uniqueCodes (l : List Domain.URL) : Prop :=
  (codesOf l).Pairwise (fun a b => a ≠ b)

/-! ## Decimal value of a character list, used to invert the decimal print
that Create uses for IDs. -/

def decDigitVal (c : Char) : Nat := c.toNat - 48

def decValue (l : List Char) : Nat :=
  l.foldl (fun acc c => acc * 10 + decDigitVal c) 0

/-! # Theorems -/

/-! ## Shape lemmas for the repository and the Create loop -/

theorem Save_error_shape (u : Domain.URL) (nowC nowU : Nat) (fault : Option String)
    (st : St) (e : GoErr) (st2 : St)
    (h : Repo.Save u nowC nowU fault st = (.error e, st2)) :
    e.allocId = st.cnt ∧ st2.store = st.store ∧ st2.cnt = st.cnt + 1 := by
  cases fault with
  | some m =>
    simp only [Repo.Save, errorsNew, Prod.mk.injEq, Except.error.injEq] at h
    obtain ⟨he, hst⟩ := h
    subst hst
    simp [← he]
  | none =>
    cases hany : st.store.any (fun v => v.shortCode == u.shortCode) with
    | true =>
      simp only [Repo.Save, errorsNew, hany, if_true, Prod.mk.injEq, Except.error.injEq,
        Bool.true_eq] at h
      obtain ⟨he, hst⟩ := h
      subst hst
      simp [← he]
    | false =>
      simp only [Repo.Save, errorsNew, hany, Bool.false_eq_true, if_false, Prod.mk.injEq] at h
      exact absurd h.1 (by simp)

theorem Save_ok_shape (u : Domain.URL) (nowC nowU : Nat) (fault : Option String)
    (st : St) (v : Domain.URL) (st2 : St)
    (h : Repo.Save u nowC nowU fault st = (.ok v, st2)) :
    fault = none ∧
    st.store.any (fun w => w.shortCode == u.shortCode) = false ∧
    v = { u with createdAt := nowC, updatedAt := nowU } ∧
    st2 = ⟨st.store ++ [v], st.cnt⟩ := by
  cases fault with
  | some m =>
    simp only [Repo.Save, errorsNew, Prod.mk.injEq] at h
    exact absurd h.1 (by simp)
  | none =>
    cases hany : st.store.any (fun v => v.shortCode == u.shortCode) with
    | true =>
      simp only [Repo.Save, errorsNew, hany, if_true, Prod.mk.injEq] at h
      exact absurd h.1 (by simp)
    | false =>
      simp only [Repo.Save, errorsNew, hany, Bool.false_eq_true, if_false, Prod.mk.injEq,
        Except.ok.injEq] at h
      obtain ⟨hv, hst⟩ := h
      subst hv
      exact ⟨rfl, hany ▸ rfl, rfl, hst.symm⟩

/-- One unfolding of the Create loop. Because errors.Is compares a freshly
allocated target by identity, the retry branch is never taken: any Save
error ends the loop at once. -/
theorem createLoop_succ_eq (longURL : String) (env : Nat → Service.AttemptEnv)
    (r i : Nat) (st : St) (calls : List Service.RepoCall) :
    Service.createLoop longURL env (r + 1) i st calls =
      match Repo.Save (Service.candidate longURL (env i)) (env i).nowC (env i).nowU
          (env i).saveFault st with
      | (.ok saved, st2) => ⟨saved, none, st2, calls ++ [.save]⟩
      | (.error e, st2) =>
        ⟨Domain.URL.empty, some e, ⟨st2.store, st2.cnt + 1⟩, calls ++ [.save]⟩ := by
  rcases hS : Repo.Save (Service.candidate longURL (env i)) (env i).nowC (env i).nowU
      (env i).saveFault st with ⟨res, st2⟩
  cases res with
  | ok saved =>
    simp [Service.createLoop, hS]
  | error e =>
    have hsh := Save_error_shape _ _ _ _ _ _ _ hS
    simp [Service.createLoop, hS, errorsNew, errorsIs, hsh.1, hsh.2.2]

/-! ## Lemmas about the store invariant -/

theorem updateFirst_codes (p : Domain.URL → Bool) (f : Domain.URL → Domain.URL)
    (hf : ∀ u, (f u).shortCode = u.shortCode) :
    ∀ l, codesOf (Repo.updateFirst p f l) = codesOf l := by
  intro l
  induction l with
  | nil => rfl
  | cons u rest ih =>
    cases hp : p u with
    | true => simp [Repo.updateFirst, hp, codesOf, hf u]
    | false =>
      simp only [Repo.updateFirst, hp, Bool.false_eq_true, if_false, codesOf, List.map_cons]
      exact congrArg _ ih

theorem removeFirst_sublist (p : Domain.URL → Bool) :
    ∀ l, (Repo.removeFirst p l).Sublist l := by
  intro l
  induction l with
  | nil => simp [Repo.removeFirst]
  | cons u rest ih =>
    cases hp : p u with
    | true => simp [Repo.removeFirst, hp]
    | false =>
      simp only [Repo.removeFirst, hp, Bool.false_eq_true, if_false]
      exact List.Sublist.cons₂ u ih

theorem uniqueCodes_updateFirst (p : Domain.URL → Bool) (f : Domain.URL → Domain.URL)
    (hf : ∀ u, (f u).shortCode = u.shortCode) (l : List Domain.URL)
    (h : uniqueCodes l) : uniqueCodes (Repo.updateFirst p f l) := by
  unfold uniqueCodes
  rw [updateFirst_codes p f hf l]
  exact h

theorem uniqueCodes_removeFirst (p : Domain.URL → Bool) (l : List Domain.URL)
    (h : uniqueCodes l) : uniqueCodes (Repo.removeFirst p l) :=
  List.Pairwise.sublist (List.Sublist.map _ (removeFirst_sublist p l)) h

theorem uniqueCodes_append (l : List Domain.URL) (u : Domain.URL)
    (h : uniqueCodes l) (hnew : ∀ v ∈ l, v.shortCode ≠ u.shortCode) :
    uniqueCodes (l ++ [u]) := by
  unfold uniqueCodes codesOf
  rw [List.map_append]
  refine List.pairwise_append.mpr ⟨h, by simp, ?_⟩
  intro a ha b hb
  simp only [List.map_cons, List.map_nil, List.mem_singleton] at hb
  subst hb
  obtain ⟨v, hv, rfl⟩ := List.mem_map.mp ha
  exact hnew v hv

theorem any_code_eq_false_iff (l : List Domain.URL) (c : String) :
    l.any (fun v => v.shortCode == c) = false ↔ ∀ v ∈ l, v.shortCode ≠ c := by
  simp [List.any_eq_true]

/-! ## Injectivity of the decimal print used for IDs -/

theorem decDigitVal_digitChar (m : Nat) (h : m < 10) :
    decDigitVal (Nat.digitChar m) = m := by
  interval_cases m <;> rfl

theorem decValue_foldl (l : List Char) : ∀ a : Nat,
    l.foldl (fun acc c => acc * 10 + decDigitVal c) a = a * 10 ^ l.length + decValue l := by
  induction l with
  | nil => intro a; simp [decValue]
  | cons c rest ih =>
    intro a
    simp only [List.foldl_cons, List.length_cons, decValue]
    rw [ih (a * 10 + decDigitVal c), ih (0 * 10 + decDigitVal c)]
    ring

theorem decValue_cons (c : Char) (l : List Char) :
    decValue (c :: l) = decDigitVal c * 10 ^ l.length + decValue l := by
  show (c :: l).foldl (fun acc c => acc * 10 + decDigitVal c) 0 = _
  rw [List.foldl_cons, decValue_foldl]
  ring_nf

theorem decValue_toDigitsCore : ∀ fuel n : Nat, n < fuel → ∀ ds : List Char,
    decValue (Nat.toDigitsCore 10 fuel n ds) = n * 10 ^ ds.length + decValue ds := by
  intro fuel
  induction fuel with
  | zero => intro n h; exact absurd h (Nat.not_lt_zero n)
  | succ f ih =>
    intro n h ds
    have hmod : n % 10 < 10 := Nat.mod_lt _ (by norm_num)
    by_cases h0 : n / 10 = 0
    · have hlt : n < 10 := by omega
      have hmn : n % 10 = n := Nat.mod_eq_of_lt hlt
      simp only [Nat.toDigitsCore, h0, if_true]
      rw [decValue_cons, decDigitVal_digitChar _ hmod, hmn]
    · have hn0 : n ≠ 0 := by
        intro hz
        subst hz
        simp at h0
      have hdiv : n / 10 < f := by
        have h1 : n / 10 < n := Nat.div_lt_self (Nat.pos_of_ne_zero hn0) (by norm_num)
        omega
      simp only [Nat.toDigitsCore, h0, if_false]
      rw [ih (n / 10) hdiv (Nat.digitChar (n % 10) :: ds), decValue_cons,
        decDigitVal_digitChar _ hmod]
      have hnm : 10 * (n / 10) + n % 10 = n := Nat.div_add_mod n 10
      simp only [List.length_cons]
      set q := n / 10 with hq
      set r := n % 10 with hr
      calc q * 10 ^ (ds.length + 1) + (r * 10 ^ ds.length + decValue ds)
          = (10 * q + r) * 10 ^ ds.length + decValue ds := by ring
        _ = n * 10 ^ ds.length + decValue ds := by rw [hnm]

theorem decValue_toDigits (n : Nat) : decValue (Nat.toDigits 10 n) = n := by
  have := decValue_toDigitsCore (n + 1) n (Nat.lt_succ_self n) []
  simpa [Nat.toDigits, decValue] using this

theorem natRepr_inj {m n : Nat} (h : Nat.repr m = Nat.repr n) : m = n := by
  have hlists : Nat.toDigits 10 m = Nat.toDigits 10 n := by
    have h2 := congrArg String.toList h
    simpa [Nat.repr, List.asString, String.toList] using h2
  have hm := decValue_toDigits m
  have hn := decValue_toDigits n
  rw [← hm, ← hn, hlists]

theorem natToString_inj {m n : Nat} (h : toString m = toString n) : m = n :=
  natRepr_inj h

/-! ## Characterizations of Create -/

theorem find?_append_none {α : Type} (p : α → Bool) (l1 l2 : List α)
    (h : l1.find? p = none) : (l1 ++ l2).find? p = l2.find? p := by
  induction l1 with
  | nil => simp
  | cons a rest ih =>
    cases hp : p a with
    | true => simp [List.find?_cons, hp] at h
    | false =>
      simp only [List.find?_cons, hp] at h
      simp only [List.cons_append, List.find?_cons, hp]
      exact ih h

theorem Create_invalid_eq (longURL : String) (ff : Option String)
    (env : Nat → Service.AttemptEnv) (st : St) (hv : isValidURL longURL = false) :
    Service.Create longURL ff env st =
      ⟨Domain.URL.empty, some ⟨Domain.ErrInvalidURL, st.cnt⟩, ⟨st.store, st.cnt + 1⟩, []⟩ := by
  simp [Service.Create, hv, errorsNew]

theorem Create_fault_eq (longURL m : String) (env : Nat → Service.AttemptEnv) (st : St)
    (hv : isValidURL longURL = true) :
    Service.Create longURL (some m) env st =
      Service.createLoop longURL env MaxRetries 0 ⟨st.store, st.cnt + 1⟩ [.find] := by
  simp [Service.Create, hv, Repo.FindByOriginalURL, errorsNew]

theorem Create_nomatch_eq (longURL : String) (env : Nat → Service.AttemptEnv) (st : St)
    (hv : isValidURL longURL = true)
    (hn : st.store.find? (fun u => u.url == longURL) = none) :
    Service.Create longURL none env st =
      Service.createLoop longURL env MaxRetries 0 ⟨st.store, st.cnt + 1⟩ [.find] := by
  simp [Service.Create, hv, Repo.FindByOriginalURL, hn, errorsNew]

theorem Create_match_eq (longURL : String) (env : Nat → Service.AttemptEnv) (st : St)
    (m : Domain.URL) (hv : isValidURL longURL = true)
    (hm : st.store.find? (fun u => u.url == longURL) = some m) :
    Service.Create longURL none env st =
      ⟨m, some ⟨Domain.ErrConflict, st.cnt⟩, ⟨st.store, st.cnt + 1⟩, [.find]⟩ := by
  simp [Service.Create, hv, Repo.FindByOriginalURL, hm, errorsNew]

theorem MaxRetries_succ : MaxRetries = 4 + 1 := rfl

/-- The loop that Create enters always performs exactly one Save: on
success it returns the saved document, on any error it returns that error,
since the retry comparison never matches. -/
theorem createLoop_top_shape (longURL : String) (env : Nat → Service.AttemptEnv)
    (st : St) (calls : List Service.RepoCall) :
    Service.createLoop longURL env MaxRetries 0 st calls =
      match Repo.Save (Service.candidate longURL (env 0)) (env 0).nowC (env 0).nowU
          (env 0).saveFault st with
      | (.ok saved, st2) => ⟨saved, none, st2, calls ++ [.save]⟩
      | (.error e, st2) =>
        ⟨Domain.URL.empty, some e, ⟨st2.store, st2.cnt + 1⟩, calls ++ [.save]⟩ := by
  rw [MaxRetries_succ, createLoop_succ_eq]

/-- Shape of a successful Create: exactly one attempt ran, the returned
document is the first-attempt candidate stamped by Save, and the store
gained exactly that document at the end. -/
theorem Create_success_shape (longURL : String) (ff : Option String)
    (env : Nat → Service.AttemptEnv) (st : St)
    (hv : isValidURL longURL = true)
    (hok : (Service.Create longURL ff env st).err = none) :
    (Service.Create longURL ff env st).url =
      { Service.candidate longURL (env 0) with
          createdAt := (env 0).nowC, updatedAt := (env 0).nowU } ∧
    (Service.Create longURL ff env st).st.store =
      st.store ++ [(Service.Create longURL ff env st).url] := by
  have hloop : Service.Create longURL ff env st =
      Service.createLoop longURL env MaxRetries 0 ⟨st.store, st.cnt + 1⟩ [.find] := by
    cases ff with
    | some m => exact Create_fault_eq longURL m env st hv
    | none =>
      cases hm : st.store.find? (fun u => u.url == longURL) with
      | none => exact Create_nomatch_eq longURL env st hv hm
      | some m =>
        rw [Create_match_eq longURL env st m hv hm] at hok
        simp at hok
  rw [hloop] at hok ⊢
  rw [createLoop_top_shape] at hok ⊢
  rcases hS : Repo.Save (Service.candidate longURL (env 0)) (env 0).nowC (env 0).nowU
      (env 0).saveFault ⟨st.store, st.cnt + 1⟩ with ⟨res, st2⟩
  cases res with
  | ok saved =>
    obtain ⟨-, -, hvv, hst2⟩ := Save_ok_shape _ _ _ _ _ _ _ hS
    simp only [hS]
    subst hst2
    exact ⟨hvv, rfl⟩
  | error e =>
    rw [hS] at hok
    simp at hok

/-! ## Store effects of each operation -/

theorem FindByShortCode_store (c : String) (ff : Option String) (st : St) :
    (Repo.FindByShortCode c ff st).2.store = st.store := by
  cases ff with
  | some m => simp [Repo.FindByShortCode, errorsNew]
  | none =>
    cases hm : st.store.find? (fun u => u.shortCode == c) with
    | none => simp [Repo.FindByShortCode, hm, errorsNew]
    | some u => simp [Repo.FindByShortCode, hm]

theorem uniqueCodes_Save (u : Domain.URL) (nowC nowU : Nat) (ff : Option String)
    (st : St) (h : uniqueCodes st.store) :
    uniqueCodes (Repo.Save u nowC nowU ff st).2.store := by
  rcases hS : Repo.Save u nowC nowU ff st with ⟨res, st2⟩
  cases res with
  | ok saved =>
    obtain ⟨-, hany, hvv, hst2⟩ := Save_ok_shape _ _ _ _ _ _ _ hS
    subst hst2
    refine uniqueCodes_append _ _ h ?_
    intro v hv
    have := (any_code_eq_false_iff st.store u.shortCode).mp hany v hv
    subst hvv
    exact this
  | error e =>
    obtain ⟨-, hst2, -⟩ := Save_error_shape _ _ _ _ _ _ _ hS
    simpa [hst2] using h

theorem uniqueCodes_Create (longURL : String) (ff : Option String)
    (env : Nat → Service.AttemptEnv) (st : St) (h : uniqueCodes st.store) :
    uniqueCodes (Service.Create longURL ff env st).st.store := by
  cases hv : isValidURL longURL with
  | false => rw [Create_invalid_eq longURL ff env st hv]; exact h
  | true =>
    have hloop : ∀ st0 : St, st0.store = st.store →
        uniqueCodes (Service.createLoop longURL env MaxRetries 0 st0 [.find]).st.store := by
      intro st0 hst0
      rw [createLoop_top_shape]
      rcases hS : Repo.Save (Service.candidate longURL (env 0)) (env 0).nowC (env 0).nowU
          (env 0).saveFault st0 with ⟨res, st2⟩
      have hp : uniqueCodes (Repo.Save (Service.candidate longURL (env 0)) (env 0).nowC
          (env 0).nowU (env 0).saveFault st0).2.store :=
        uniqueCodes_Save _ _ _ _ _ (hst0 ▸ h)
      rw [hS] at hp
      cases res with
      | ok saved => exact hp
      | error e => exact hp
    cases ff with
    | some m => rw [Create_fault_eq longURL m env st hv]; exact hloop _ rfl
    | none =>
      cases hm : st.store.find? (fun u => u.url == longURL) with
      | none => rw [Create_nomatch_eq longURL env st hv hm]; exact hloop _ rfl
      | some m2 => rw [Create_match_eq longURL env st m2 hv hm]; exact h

theorem uniqueCodes_Update (code newURL : String) (ff : Option String)
    (nowSet now2 : Nat) (st : St) (h : uniqueCodes st.store) :
    uniqueCodes (Service.Update code newURL ff nowSet now2 st).st.store := by
  cases hv : isValidURL newURL with
  | false => simp only [Service.Update, hv, Bool.false_eq_true, if_false, errorsNew]; exact h
  | true =>
    simp only [Service.Update, hv, if_true]
    cases ff with
    | some m => simp [Repo.Update, errorsNew]; exact h
    | none =>
      cases hm : st.store.find? (fun u => u.shortCode == code) with
      | none => simp [Repo.Update, hm, errorsNew]; exact h
      | some old =>
        simp only [Repo.Update, hm]
        refine uniqueCodes_updateFirst _ _ ?_ _ h
        intro u
        rfl

theorem uniqueCodes_Delete (code : String) (ff : Option String) (st : St)
    (h : uniqueCodes st.store) :
    uniqueCodes (Service.Delete code ff st).2.store := by
  cases ff with
  | some m => simp [Service.Delete, Repo.Delete, errorsNew]; exact h
  | none =>
    cases ha : st.store.any (fun u => u.shortCode == code) with
    | true =>
      simp only [Service.Delete, Repo.Delete, ha, if_true]
      exact uniqueCodes_removeFirst _ _ h
    | false =>
      simp only [Service.Delete, Repo.Delete, ha, Bool.false_eq_true, if_false, errorsNew]
      exact h

theorem uniqueCodes_IncrementAccessCount (code : String) (ff : Option String) (st : St)
    (h : uniqueCodes st.store) :
    uniqueCodes (Repo.IncrementAccessCount code ff st).2.store := by
  cases ff with
  | some m => simp [Repo.IncrementAccessCount, errorsNew]; exact h
  | none =>
    cases ha : st.store.any (fun u => u.shortCode == code) with
    | true =>
      simp only [Repo.IncrementAccessCount, ha, if_true]
      refine uniqueCodes_updateFirst _ _ ?_ _ h
      intro u
      rfl
    | false =>
      simp only [Repo.IncrementAccessCount, ha, Bool.false_eq_true, if_false, errorsNew]
      exact h

theorem uniqueCodes_Redirect (code : String) (ff fi : Option String) (st : St)
    (h : uniqueCodes st.store) :
    uniqueCodes (Service.Redirect code ff fi st).st.store := by
  rcases hF : Repo.FindByShortCode code ff st with ⟨res, st2⟩
  have hst2 : st2.store = st.store := by
    have := FindByShortCode_store code ff st
    rw [hF] at this
    exact this
  cases res with
  | error e => simp only [Service.Redirect, hF]; rw [hst2]; exact h
  | ok u =>
    simp only [Service.Redirect, hF]
    exact uniqueCodes_IncrementAccessCount _ _ _ (hst2 ▸ h)

theorem uniqueCodes_Get (code : String) (ff : Option String) (st : St)
    (h : uniqueCodes st.store) :
    uniqueCodes (Service.Get code ff st).st.store := by
  rcases hF : Repo.FindByShortCode code ff st with ⟨res, st2⟩
  have hst2 : st2.store = st.store := by
    have := FindByShortCode_store code ff st
    rw [hF] at this
    exact this
  cases res with
  | error e => simp only [Service.Get, hF]; rw [hst2]; exact h
  | ok u => simp only [Service.Get, hF]; rw [hst2]; exact h

/-- After removing the first document carrying a code from a collection
with pairwise-distinct codes, no document with that code remains. -/
theorem removeFirst_no_more (c : String) : ∀ l : List Domain.URL, uniqueCodes l →
    (Repo.removeFirst (fun u => u.shortCode == c) l).any (fun u => u.shortCode == c)
      = false := by
  intro l
  induction l with
  | nil => intro _; simp [Repo.removeFirst]
  | cons u rest ih =>
    intro h
    simp only [uniqueCodes, codesOf, List.map_cons, List.pairwise_cons] at h
    obtain ⟨hhead, htail⟩ := h
    cases hp : (u.shortCode == c) with
    | true =>
      have hc : u.shortCode = c := by simpa using hp
      simp only [Repo.removeFirst, hp, if_true]
      rw [any_code_eq_false_iff]
      intro v hv
      have hne : u.shortCode ≠ v.shortCode := hhead _ (List.mem_map_of_mem _ hv)
      rw [← hc]
      exact fun hh => hne hh.symm
    | false =>
      simp only [Repo.removeFirst, hp, Bool.false_eq_true, if_false, List.any_cons, hp,
        Bool.false_or]
      exact ih htail

theorem find?_code_eq_none_of_any_false (l : List Domain.URL) (c : String)
    (h : l.any (fun v => v.shortCode == c) = false) :
    l.find? (fun v => v.shortCode == c) = none := by
  rw [List.find?_eq_none]
  intro x hx
  have := (any_code_eq_false_iff l c).mp h x hx
  simp [this]

/-- A valid Create always reaches storage: its call list is never empty. -/
theorem Create_valid_calls_ne_nil (s : String) (ff : Option String)
    (env : Nat → Service.AttemptEnv) (st : St) (hv : isValidURL s = true) :
    (Service.Create s ff env st).calls ≠ [] := by
  have hL : ∀ st0 : St, (Service.createLoop s env MaxRetries 0 st0 [.find]).calls ≠ [] := by
    intro st0
    rw [createLoop_top_shape]
    rcases hS : Repo.Save (Service.candidate s (env 0)) (env 0).nowC (env 0).nowU
        (env 0).saveFault st0 with ⟨res, st2⟩
    cases res <;> simp
  cases ff with
  | some m => rw [Create_fault_eq s m env st hv]; exact hL _
  | none =>
    cases hm : st.store.find? (fun u => u.url == s) with
    | none => rw [Create_nomatch_eq s env st hv hm]; exact hL _
    | some m2 => rw [Create_match_eq s env st m2 hv hm]; simp

/-- A valid Update always makes exactly the one storage call. -/
theorem Update_valid_calls (code s : String) (ff : Option String) (n1 n2 : Nat)
    (st : St) (hv : isValidURL s = true) :
    (Service.Update code s ff n1 n2 st).calls = [.update] := by
  simp only [Service.Update, hv, if_true]
  rcases hS : Repo.Update code s n1 n2 ff st with ⟨res, st2⟩
  cases res <;> simp

/-! ## Claim theorems -/

/-- Claim C1: the claim says a uniqueness violation reported by Save makes
Create retry with a fresh candidate and that only a non-uniqueness error
aborts. The code does neither: errors.Is is called against a freshly
allocated errors.New target, which never matches, so the very first
uniqueness violation aborts the loop and surfaces the repository conflict
error. Here the store holds the attempt-0 candidate code "aaaaaa"; the
attempt-1 candidate "bbbbbb" is free, yet Create performs exactly one Save
(the call list is one find then one save), returns the conflict error
allocated by Save, and persists nothing. -/
theorem claim_C1_conflict_aborts_instead_of_retrying :
    (Service.Create "https://example.com" none
        (fun i => ⟨fun _ => i, 100, 0, 0, none⟩)
        ⟨[⟨"9", "https://other.com", "aaaaaa", 1, 1, 0⟩], 0⟩).calls
      = [.find, .save] ∧
    (Service.Create "https://example.com" none
        (fun i => ⟨fun _ => i, 100, 0, 0, none⟩)
        ⟨[⟨"9", "https://other.com", "aaaaaa", 1, 1, 0⟩], 0⟩).err
      = some ⟨Domain.ErrConflict, 1⟩ ∧
    (Service.Create "https://example.com" none
        (fun i => ⟨fun _ => i, 100, 0, 0, none⟩)
        ⟨[⟨"9", "https://other.com", "aaaaaa", 1, 1, 0⟩], 0⟩).st.store
      = [⟨"9", "https://other.com", "aaaaaa", 1, 1, 0⟩] ∧
    generateShortCode (fun _ => (1 : Nat)) = "bbbbbb" ∧
    ([⟨"9", "https://other.com", "aaaaaa", 1, 1, 0⟩] : List Domain.URL).any
      (fun v => v.shortCode == "bbbbbb") = false := by
  decide

/-- Claim C2: the claim says that when no insert succeeds within the 5
attempts, Create fails with the exhausted-retries terminal error. In the
code the exhausted-retries branch is unreachable: because the errors.Is
comparison never matches, every iteration either succeeds or returns at
once, so a run in which every candidate collides (here the store holds the
codes of all five attempts) terminates after a single Save with the
repository conflict error, whose message differs from the
exhausted-retries message. -/
theorem claim_C2_exhausted_retries_never_surfaced :
    ((List.range 5).all (fun i =>
      ([⟨"1", "https://u1.com", "aaaaaa", 0, 0, 0⟩,
         ⟨"2", "https://u2.com", "bbbbbb", 0, 0, 0⟩,
         ⟨"3", "https://u3.com", "cccccc", 0, 0, 0⟩,
         ⟨"4", "https://u4.com", "dddddd", 0, 0, 0⟩,
         ⟨"5", "https://u5.com", "eeeeee", 0, 0, 0⟩] : List Domain.URL).any
        (fun v => v.shortCode == generateShortCode (fun _ => i))) = true) ∧
    (Service.Create "https://example.com" none
        (fun i => ⟨fun _ => i, 100, 0, 0, none⟩)
        ⟨[⟨"1", "https://u1.com", "aaaaaa", 0, 0, 0⟩,
          ⟨"2", "https://u2.com", "bbbbbb", 0, 0, 0⟩,
          ⟨"3", "https://u3.com", "cccccc", 0, 0, 0⟩,
          ⟨"4", "https://u4.com", "dddddd", 0, 0, 0⟩,
          ⟨"5", "https://u5.com", "eeeeee", 0, 0, 0⟩], 0⟩).err
      = some ⟨Domain.ErrConflict, 1⟩ ∧
    Domain.ErrConflict ≠ Service.exhaustedMsg ∧
    (Service.Create "https://example.com" none
        (fun i => ⟨fun _ => i, 100, 0, 0, none⟩)
        ⟨[⟨"1", "https://u1.com", "aaaaaa", 0, 0, 0⟩,
          ⟨"2", "https://u2.com", "bbbbbb", 0, 0, 0⟩,
          ⟨"3", "https://u3.com", "cccccc", 0, 0, 0⟩,
          ⟨"4", "https://u4.com", "dddddd", 0, 0, 0⟩,
          ⟨"5", "https://u5.com", "eeeeee", 0, 0, 0⟩], 0⟩).calls
      = [.find, .save] := by
  decide

/-- Claim C3: for every valid longURL that storage already maps, Create
returns the existing Mapping as its payload together with a Conflict error;
consequently, after a successful Create, a second Create with the same URL
returns Conflict carrying the Mapping the first call persisted. -/
theorem claim_C3_duplicate_conflict (longURL : String)
    (envA envB : Nat → Service.AttemptEnv) (stPre st0 : St) (m : Domain.URL)
    (hv : isValidURL longURL = true)
    (hfound : stPre.store.find? (fun u => u.url == longURL) = some m) :
    ((Service.Create longURL none envA stPre).url = m ∧
     (Service.Create longURL none envA stPre).failsWith Domain.ErrConflict)
    ∧
    ((st0.store.find? (fun u => u.url == longURL) = none) →
     ((Service.Create longURL none envA st0).err = none) →
     ((Service.Create longURL none envB (Service.Create longURL none envA st0).st).url =
        (Service.Create longURL none envA st0).url ∧
      (Service.Create longURL none envB (Service.Create longURL none envA st0).st).failsWith
        Domain.ErrConflict)) := by
  constructor
  · rw [Create_match_eq longURL envA stPre m hv hfound]
    exact ⟨rfl, ⟨_, rfl, rfl⟩⟩
  · intro h0 hsucc
    obtain ⟨hurl, hstore⟩ := Create_success_shape longURL none envA st0 hv hsucc
    have hfind : (Service.Create longURL none envA st0).st.store.find?
        (fun u => u.url == longURL) = some (Service.Create longURL none envA st0).url := by
      rw [hstore, find?_append_none _ _ _ h0]
      simp [List.find?_cons, hurl, Service.candidate]
    rw [Create_match_eq longURL envB (Service.Create longURL none envA st0).st
      (Service.Create longURL none envA st0).url hv hfind]
    exact ⟨rfl, ⟨_, rfl, rfl⟩⟩

/-- Claim C3 witness: a first Create on an empty store succeeds and the
second Create with the same URL returns that Mapping with a Conflict
error; the direct duplicate case holds on a prefilled store. -/
theorem claim_C3_witness :
    ((Service.Create "https://a.com" none (fun _ => ⟨fun _ => 0, 7, 1, 2, none⟩)
        ⟨[⟨"5", "https://a.com", "zzzzzz", 0, 0, 0⟩], 0⟩).url
      = ⟨"5", "https://a.com", "zzzzzz", 0, 0, 0⟩ ∧
     (Service.Create "https://a.com" none (fun _ => ⟨fun _ => 0, 7, 1, 2, none⟩)
        ⟨[⟨"5", "https://a.com", "zzzzzz", 0, 0, 0⟩], 0⟩).failsWith Domain.ErrConflict)
    ∧
    ((Service.Create "https://a.com" none (fun _ => ⟨fun _ => 1, 8, 3, 4, none⟩)
        (Service.Create "https://a.com" none (fun _ => ⟨fun _ => 0, 7, 1, 2, none⟩)
          ⟨[], 0⟩).st).url =
      (Service.Create "https://a.com" none (fun _ => ⟨fun _ => 0, 7, 1, 2, none⟩) ⟨[], 0⟩).url ∧
     (Service.Create "https://a.com" none (fun _ => ⟨fun _ => 1, 8, 3, 4, none⟩)
        (Service.Create "https://a.com" none (fun _ => ⟨fun _ => 0, 7, 1, 2, none⟩)
          ⟨[], 0⟩).st).failsWith Domain.ErrConflict) :=
  ⟨(claim_C3_duplicate_conflict "https://a.com" (fun _ => ⟨fun _ => 0, 7, 1, 2, none⟩)
      (fun _ => ⟨fun _ => 1, 8, 3, 4, none⟩)
      ⟨[⟨"5", "https://a.com", "zzzzzz", 0, 0, 0⟩], 0⟩ ⟨[], 0⟩
      ⟨"5", "https://a.com", "zzzzzz", 0, 0, 0⟩ (by decide) (by decide)).1,
   (claim_C3_duplicate_conflict "https://a.com" (fun _ => ⟨fun _ => 0, 7, 1, 2, none⟩)
      (fun _ => ⟨fun _ => 1, 8, 3, 4, none⟩)
      ⟨[⟨"5", "https://a.com", "zzzzzz", 0, 0, 0⟩], 0⟩ ⟨[], 0⟩
      ⟨"5", "https://a.com", "zzzzzz", 0, 0, 0⟩ (by decide) (by decide)).2
      (by decide) (by decide)⟩

/-- Claim C9 counterexample: Create derives the ID from
time.Now().UnixNano() alone, so two Creates that read the same nanosecond
clock value both succeed (their short codes differ, and the ID field is not
under a unique index because of the malformed bson tag) and persist two
Mappings with the same id. -/
theorem claim_C9_counterexample :
    ((Service.Create "https://a.com" none (fun _ => ⟨fun _ => 0, 42, 0, 0, none⟩)
        ⟨[], 0⟩).err = none) ∧
    ((Service.Create "https://b.com" none (fun _ => ⟨fun _ => 1, 42, 0, 0, none⟩)
        (Service.Create "https://a.com" none (fun _ => ⟨fun _ => 0, 42, 0, 0, none⟩)
          ⟨[], 0⟩).st).err = none) ∧
    ((Service.Create "https://a.com" none (fun _ => ⟨fun _ => 0, 42, 0, 0, none⟩)
        ⟨[], 0⟩).url.id
      = (Service.Create "https://b.com" none (fun _ => ⟨fun _ => 1, 42, 0, 0, none⟩)
          (Service.Create "https://a.com" none (fun _ => ⟨fun _ => 0, 42, 0, 0, none⟩)
            ⟨[], 0⟩).st).url.id) := by
  decide

/-- Claim C9 (amended): every Mapping id is assigned at creation as the
decimal print of the creation clock reading, so two Mappings created by
Create have distinct ids whenever those nanosecond clock readings are
distinct; creations within the same nanosecond can share an id. -/
theorem claim_C9_distinct_ids_of_distinct_nanos (u1 u2 : String)
    (f1 f2 : Option String) (e1 e2 : Nat → Service.AttemptEnv) (s1 s2 : St)
    (hv1 : isValidURL u1 = true) (hv2 : isValidURL u2 = true)
    (h1 : (Service.Create u1 f1 e1 s1).err = none)
    (h2 : (Service.Create u2 f2 e2 s2).err = none)
    (ht : (e1 0).idNano ≠ (e2 0).idNano) :
    (Service.Create u1 f1 e1 s1).url.id ≠ (Service.Create u2 f2 e2 s2).url.id := by
  obtain ⟨hu1, -⟩ := Create_success_shape u1 f1 e1 s1 hv1 h1
  obtain ⟨hu2, -⟩ := Create_success_shape u2 f2 e2 s2 hv2 h2
  rw [hu1, hu2]
  simp only [Service.candidate]
  intro h
  exact ht (natToString_inj h)

/-- Claim C9 witness: two Creates at nanosecond readings 41 and 42 yield
Mappings with distinct ids. -/
theorem claim_C9_witness :
    (Service.Create "https://a.com" none (fun _ => ⟨fun _ => 0, 41, 0, 0, none⟩)
        ⟨[], 0⟩).url.id ≠
    (Service.Create "https://b.com" none (fun _ => ⟨fun _ => 1, 42, 0, 0, none⟩)
        ⟨[], 0⟩).url.id :=
  claim_C9_distinct_ids_of_distinct_nanos "https://a.com" "https://b.com" none none
    (fun _ => ⟨fun _ => 0, 41, 0, 0, none⟩) (fun _ => ⟨fun _ => 1, 42, 0, 0, none⟩)
    ⟨[], 0⟩ ⟨[], 0⟩ (by decide) (by decide) (by decide) (by decide) (by decide)

/-- Claim C10: when the duplicate-check lookup fails with any error at all,
not only NotFound, Create behaves exactly as if no existing Mapping had
been found: it enters the insertion loop (unconditionally performing a
Save), coincides with the no-match run when the store has no match, and
the lookup error itself is never the error Create returns. -/
theorem claim_C10_create_ignores_lookup_errors (s m : String)
    (env : Nat → Service.AttemptEnv) (st : St) (hv : isValidURL s = true) :
    (Service.Create s (some m) env st =
      Service.createLoop s env MaxRetries 0 ⟨st.store, st.cnt + 1⟩ [.find]) ∧
    (st.store.find? (fun u => u.url == s) = none →
      Service.Create s (some m) env st = Service.Create s none env st) ∧
    Service.RepoCall.save ∈ (Service.Create s (some m) env st).calls ∧
    (∀ e, (Service.Create s (some m) env st).err = some e →
      e ≠ (⟨m, st.cnt⟩ : GoErr)) := by
  refine ⟨Create_fault_eq s m env st hv, ?_, ?_, ?_⟩
  · intro hn
    rw [Create_fault_eq s m env st hv, Create_nomatch_eq s env st hv hn]
  · rw [Create_fault_eq s m env st hv, createLoop_top_shape]
    rcases hS : Repo.Save (Service.candidate s (env 0)) (env 0).nowC (env 0).nowU
        (env 0).saveFault ⟨st.store, st.cnt + 1⟩ with ⟨res, st2⟩
    cases res <;> simp
  · rw [Create_fault_eq s m env st hv, createLoop_top_shape]
    rcases hS : Repo.Save (Service.candidate s (env 0)) (env 0).nowC (env 0).nowU
        (env 0).saveFault ⟨st.store, st.cnt + 1⟩ with ⟨res, st2⟩
    cases res with
    | ok saved => intro e he; simp at he
    | error e2 =>
      intro e he
      simp only [Option.some.injEq] at he
      subst he
      obtain ⟨hid, -, -⟩ := Save_error_shape _ _ _ _ _ _ _ hS
      intro hcontra
      rw [hcontra] at hid
      simp at hid

/-- Claim C10 witness: a lookup fault on a store that does hold the URL
still sends Create into the insertion loop and the fault error is not
returned. -/
theorem claim_C10_witness :
    (Service.Create "https://a.com" (some "driver timeout")
        (fun _ => ⟨fun _ => 0, 7, 1, 2, none⟩) ⟨[⟨"5", "https://a.com", "zzzzzz", 0, 0, 0⟩], 3⟩ =
      Service.createLoop "https://a.com" (fun _ => ⟨fun _ => 0, 7, 1, 2, none⟩)
        MaxRetries 0 ⟨[⟨"5", "https://a.com", "zzzzzz", 0, 0, 0⟩], 4⟩ [.find]) ∧
    Service.RepoCall.save ∈ (Service.Create "https://a.com" (some "driver timeout")
        (fun _ => ⟨fun _ => 0, 7, 1, 2, none⟩)
        ⟨[⟨"5", "https://a.com", "zzzzzz", 0, 0, 0⟩], 3⟩).calls :=
  ⟨(claim_C10_create_ignores_lookup_errors "https://a.com" "driver timeout"
      (fun _ => ⟨fun _ => 0, 7, 1, 2, none⟩)
      ⟨[⟨"5", "https://a.com", "zzzzzz", 0, 0, 0⟩], 3⟩ (by decide)).1,
   (claim_C10_create_ignores_lookup_errors "https://a.com" "driver timeout"
      (fun _ => ⟨fun _ => 0, 7, 1, 2, none⟩)
      ⟨[⟨"5", "https://a.com", "zzzzzz", 0, 0, 0⟩], 3⟩ (by decide)).2.2.1⟩

/-- Claim C4: for every input string, Create and Update fail with
InvalidInput exactly when the string is not accepted by the URL validation
(parse as an absolute URL with non-empty host and http or https scheme);
the check runs before any storage call, so on InvalidInput the call list
is empty and the stored collection is unchanged — and conversely a run
that made no storage call and failed with the InvalidInput message can
only be a validation failure. -/
theorem claim_C4_validation_iff (s code : String) (ff : Option String)
    (env : Nat → Service.AttemptEnv) (nowSet now2 : Nat) (st : St) :
    ((isValidURL s = false) ↔
      ((Service.Create s ff env st).failsWith Domain.ErrInvalidURL ∧
       (Service.Create s ff env st).calls = [] ∧
       (Service.Create s ff env st).st.store = st.store))
    ∧
    ((isValidURL s = false) ↔
      ((Service.Update code s ff nowSet now2 st).failsWith Domain.ErrInvalidURL ∧
       (Service.Update code s ff nowSet now2 st).calls = [] ∧
       (Service.Update code s ff nowSet now2 st).st.store = st.store)) := by
  cases hv : isValidURL s with
  | false =>
    rw [Create_invalid_eq s ff env st hv]
    have hU : Service.Update code s ff nowSet now2 st =
        ⟨Domain.URL.empty, some ⟨Domain.ErrInvalidURL, st.cnt⟩, ⟨st.store, st.cnt + 1⟩, []⟩ := by
      simp [Service.Update, hv, errorsNew]
    rw [hU]
    exact ⟨⟨fun _ => ⟨⟨⟨Domain.ErrInvalidURL, st.cnt⟩, rfl, rfl⟩, rfl, rfl⟩, fun _ => rfl⟩,
           ⟨fun _ => ⟨⟨⟨Domain.ErrInvalidURL, st.cnt⟩, rfl, rfl⟩, rfl, rfl⟩, fun _ => rfl⟩⟩
  | true =>
    have hc := Create_valid_calls_ne_nil s ff env st hv
    have hu := Update_valid_calls code s ff nowSet now2 st hv
    constructor
    · constructor
      · intro hfalse
        exact absurd hfalse (by simp)
      · rintro ⟨-, hcalls, -⟩
        exact absurd hcalls hc
    · constructor
      · intro hfalse
        exact absurd hfalse (by simp)
      · rintro ⟨-, hcalls, -⟩
        rw [hu] at hcalls
        exact absurd hcalls (by simp)

/-- Claim C4 witness: a malformed input fails both operations with
InvalidInput, no storage call and an unchanged store. -/
theorem claim_C4_witness :
    ((isValidURL "notaurl" = false) ↔
      ((Service.Create "notaurl" none (fun _ => ⟨fun _ => 0, 7, 1, 2, none⟩)
          ⟨[], 0⟩).failsWith Domain.ErrInvalidURL ∧
       (Service.Create "notaurl" none (fun _ => ⟨fun _ => 0, 7, 1, 2, none⟩)
          ⟨[], 0⟩).calls = [] ∧
       (Service.Create "notaurl" none (fun _ => ⟨fun _ => 0, 7, 1, 2, none⟩)
          ⟨[], 0⟩).st.store = ([] : List Domain.URL))) ∧
    ((isValidURL "notaurl" = false) ↔
      ((Service.Update "abc123" "notaurl" none 5 6 ⟨[], 0⟩).failsWith Domain.ErrInvalidURL ∧
       (Service.Update "abc123" "notaurl" none 5 6 ⟨[], 0⟩).calls = [] ∧
       (Service.Update "abc123" "notaurl" none 5 6 ⟨[], 0⟩).st.store
          = ([] : List Domain.URL))) :=
  claim_C4_validation_iff "notaurl" "abc123" none (fun _ => ⟨fun _ => 0, 7, 1, 2, none⟩)
    5 6 ⟨[], 0⟩

/-- Claim C5: the generated short codes are exactly 6 characters over the
62-character alphanumeric alphabet (and a successful Create persists
exactly the generator output of its first attempt), and every service
operation preserves the storage invariant, enforced through the unique
index, that no two persisted Mappings share a short code. -/
theorem claim_C5_shortcode_invariants (rands : Nat → Nat) (s code newURL : String)
    (ff fi : Option String) (env : Nat → Service.AttemptEnv) (nowSet now2 : Nat)
    (st : St) :
    (generateShortCode rands).length = 6 ∧
    (∀ c ∈ (generateShortCode rands).toList, c ∈ ShortCodeChars.toList) ∧
    ShortCodeChars.length = 62 ∧
    ShortCodeChars.toList.all (fun c =>
      GoNetUrl.isUpper c || GoNetUrl.isLower c || GoNetUrl.isDigitChar c) = true ∧
    (isValidURL s = true → (Service.Create s ff env st).err = none →
      (Service.Create s ff env st).url.shortCode = generateShortCode (env 0).rands) ∧
    (uniqueCodes st.store → uniqueCodes (Service.Create s ff env st).st.store) ∧
    (uniqueCodes st.store →
      uniqueCodes (Service.Update code newURL ff nowSet now2 st).st.store) ∧
    (uniqueCodes st.store → uniqueCodes (Service.Delete code ff st).2.store) ∧
    (uniqueCodes st.store → uniqueCodes (Service.Redirect code ff fi st).st.store) ∧
    (uniqueCodes st.store → uniqueCodes (Service.Get code ff st).st.store) := by
  refine ⟨?_, ?_, by decide, by decide, ?_, uniqueCodes_Create s ff env st,
    uniqueCodes_Update code newURL ff nowSet now2 st, uniqueCodes_Delete code ff st,
    uniqueCodes_Redirect code ff fi st, uniqueCodes_Get code ff st⟩
  · rfl
  · intro c hc
    have hc2 : c ∈ (List.range ShortCodeLength).map
        (fun i => ShortCodeChars.toList.getD (rands i % ShortCodeChars.length) 'a') := hc
    obtain ⟨i, -, rfl⟩ := List.mem_map.mp hc2
    have hlen : ShortCodeChars.toList.length = 62 := by decide
    have hlt : rands i % ShortCodeChars.length < ShortCodeChars.toList.length := by
      rw [hlen]
      exact Nat.mod_lt _ (by decide)
    rw [List.getD_eq_getElem ShortCodeChars.toList 'a' hlt]
    exact List.getElem_mem hlt
  · intro hv hok
    obtain ⟨hurl, -⟩ := Create_success_shape s ff env st hv hok
    rw [hurl]
    rfl

/-- Claim C5 witness: the generator invariants at a sample random stream,
and preservation of code uniqueness across a sample Create on a store
satisfying the invariant. -/
theorem claim_C5_witness :
    (generateShortCode (fun i => i * 13)).length = 6 ∧
    uniqueCodes ([⟨"5", "https://b.com", "zzzzzz", 0, 0, 0⟩] : List Domain.URL) ∧
    uniqueCodes (Service.Create "https://a.com" none
      (fun _ => ⟨fun _ => 0, 7, 1, 2, none⟩)
      ⟨[⟨"5", "https://b.com", "zzzzzz", 0, 0, 0⟩], 0⟩).st.store :=
  ⟨(claim_C5_shortcode_invariants (fun i => i * 13) "https://a.com" "c" "d" none none
      (fun _ => ⟨fun _ => 0, 7, 1, 2, none⟩) 0 0
      ⟨[⟨"5", "https://b.com", "zzzzzz", 0, 0, 0⟩], 0⟩).1,
   by simp [uniqueCodes, codesOf],
   (claim_C5_shortcode_invariants (fun i => i * 13) "https://a.com" "c" "d" none none
      (fun _ => ⟨fun _ => 0, 7, 1, 2, none⟩) 0 0
      ⟨[⟨"5", "https://b.com", "zzzzzz", 0, 0, 0⟩], 0⟩).2.2.2.2.2.1
      (by simp [uniqueCodes, codesOf])⟩

/-- Claim C6: a successful Update returns a Mapping whose longURL is the
new value and whose updatedAt is the reconciliation-time clock reading,
hence no earlier than the request time whenever the clock is monotone,
even though the storage primitive decodes the pre-update snapshot; the
returned shortCode is exactly the one passed in; and Update fails NotFound
when no Mapping has that code. -/
theorem claim_C6_update_reconciles (code newURL : String) (nowSet now2 reqTime : Nat)
    (st : St) (hv : isValidURL newURL = true) (hclock : reqTime ≤ now2) :
    (∀ d, st.store.find? (fun u => u.shortCode == code) = some d →
      ((Service.Update code newURL none nowSet now2 st).err = none ∧
       (Service.Update code newURL none nowSet now2 st).url.url = newURL ∧
       (Service.Update code newURL none nowSet now2 st).url.shortCode = code ∧
       reqTime ≤ (Service.Update code newURL none nowSet now2 st).url.updatedAt)) ∧
    (st.store.find? (fun u => u.shortCode == code) = none →
      (Service.Update code newURL none nowSet now2 st).failsWith Domain.ErrNotFound) := by
  constructor
  · intro d hd
    have hdcode : d.shortCode = code := by
      have := List.find?_some hd
      simpa using this
    simp [Service.Update, hv, Repo.Update, hd, hdcode, hclock]
  · intro hn
    simp [Service.Update, hv, Repo.Update, hn, errorsNew, Service.SvcRes.failsWith]

/-- Claim C6 witness: updating an existing code returns the new URL under
the same code with the fresh timestamp; updating a missing code fails
NotFound. -/
theorem claim_C6_witness :
    ((Service.Update "abc123" "https://new.com" none 50 60
        ⟨[⟨"1", "https://old.com", "abc123", 10, 10, 3⟩], 0⟩).err = none ∧
     (Service.Update "abc123" "https://new.com" none 50 60
        ⟨[⟨"1", "https://old.com", "abc123", 10, 10, 3⟩], 0⟩).url.url = "https://new.com" ∧
     (Service.Update "abc123" "https://new.com" none 50 60
        ⟨[⟨"1", "https://old.com", "abc123", 10, 10, 3⟩], 0⟩).url.shortCode = "abc123" ∧
     55 ≤ (Service.Update "abc123" "https://new.com" none 50 60
        ⟨[⟨"1", "https://old.com", "abc123", 10, 10, 3⟩], 0⟩).url.updatedAt) ∧
    (Service.Update "nosuch" "https://new.com" none 50 60
        ⟨[⟨"1", "https://old.com", "abc123", 10, 10, 3⟩], 0⟩).failsWith Domain.ErrNotFound :=
  ⟨(claim_C6_update_reconciles "abc123" "https://new.com" 50 60 55
      ⟨[⟨"1", "https://old.com", "abc123", 10, 10, 3⟩], 0⟩ (by decide) (by decide)).1
      ⟨"1", "https://old.com", "abc123", 10, 10, 3⟩ (by decide),
   (claim_C6_update_reconciles "nosuch" "https://new.com" 50 60 55
      ⟨[⟨"1", "https://old.com", "abc123", 10, 10, 3⟩], 0⟩ (by decide) (by decide)).2
      (by decide)⟩

/-- Claim C7: Redirect fails NotFound when no Mapping carries the code,
otherwise returns the stored longURL; and the returned value and error are
independent of the outcome of the detached access-count increment. -/
theorem claim_C7_redirect (code : String) (fi fi2 : Option String) (st : St) :
    (st.store.find? (fun u => u.shortCode == code) = none →
      (∃ e, (Service.Redirect code none fi st).err = some e ∧
        e.msg = Domain.ErrNotFound)) ∧
    (∀ d, st.store.find? (fun u => u.shortCode == code) = some d →
      (Service.Redirect code none fi st).longURL = d.url ∧
      (Service.Redirect code none fi st).err = none) ∧
    ((Service.Redirect code none fi st).longURL
        = (Service.Redirect code none fi2 st).longURL ∧
     (Service.Redirect code none fi st).err = (Service.Redirect code none fi2 st).err) := by
  refine ⟨?_, ?_, ?_⟩
  · intro hn
    simp [Service.Redirect, Repo.FindByShortCode, hn, errorsNew]
  · intro d hd
    simp [Service.Redirect, Repo.FindByShortCode, hd]
  · cases hm : st.store.find? (fun u => u.shortCode == code) with
    | none => simp [Service.Redirect, Repo.FindByShortCode, hm, errorsNew]
    | some d => simp [Service.Redirect, Repo.FindByShortCode, hm]

/-- Claim C7 witness: a missing code fails NotFound; a present code
returns its URL, identically whether the detached increment succeeds or
faults. -/
theorem claim_C7_witness :
    (∃ e, (Service.Redirect "nosuch" none none
        (⟨[⟨"1", "https://t.com", "abc123", 0, 0, 0⟩], 0⟩ : St)).err = some e ∧
      e.msg = Domain.ErrNotFound) ∧
    ((Service.Redirect "abc123" none none
        (⟨[⟨"1", "https://t.com", "abc123", 0, 0, 0⟩], 0⟩ : St)).longURL = "https://t.com" ∧
     (Service.Redirect "abc123" none none
        (⟨[⟨"1", "https://t.com", "abc123", 0, 0, 0⟩], 0⟩ : St)).err = none) ∧
    (Service.Redirect "abc123" none none
        (⟨[⟨"1", "https://t.com", "abc123", 0, 0, 0⟩], 0⟩ : St)).longURL
      = (Service.Redirect "abc123" none (some "increment fault")
        (⟨[⟨"1", "https://t.com", "abc123", 0, 0, 0⟩], 0⟩ : St)).longURL :=
  ⟨(claim_C7_redirect "nosuch" none none
      ⟨[⟨"1", "https://t.com", "abc123", 0, 0, 0⟩], 0⟩).1 (by decide),
   (claim_C7_redirect "abc123" none none
      ⟨[⟨"1", "https://t.com", "abc123", 0, 0, 0⟩], 0⟩).2.1
      ⟨"1", "https://t.com", "abc123", 0, 0, 0⟩ (by decide),
   ((claim_C7_redirect "abc123" none (some "increment fault")
      ⟨[⟨"1", "https://t.com", "abc123", 0, 0, 0⟩], 0⟩).2.2).1⟩

/-- Claim C8: Delete removes the Mapping and fails NotFound when no
Mapping matches; after a successful Delete on a store whose codes are
unique, a Get on the same code fails NotFound and a second Delete also
fails NotFound, as an ordinary error value rather than a crash. -/
theorem claim_C8_delete_idempotent (code : String) (st : St)
    (hu : uniqueCodes st.store) :
    (st.store.any (fun u => u.shortCode == code) = false →
      (∃ e, (Service.Delete code none st).1 = some e ∧ e.msg = Domain.ErrNotFound)) ∧
    (st.store.any (fun u => u.shortCode == code) = true →
      ((Service.Delete code none st).1 = none ∧
       (∃ e, (Service.Get code none (Service.Delete code none st).2).err = some e ∧
         e.msg = Domain.ErrNotFound) ∧
       (∃ e, (Service.Delete code none (Service.Delete code none st).2).1 = some e ∧
         e.msg = Domain.ErrNotFound))) := by
  constructor
  · intro ha
    simp [Service.Delete, Repo.Delete, ha, errorsNew]
  · intro ha
    have hdel : Service.Delete code none st =
        (none, ⟨Repo.removeFirst (fun u => u.shortCode == code) st.store, st.cnt⟩) := by
      simp [Service.Delete, Repo.Delete, ha]
    have hgone : (Repo.removeFirst (fun u => u.shortCode == code) st.store).any
        (fun u => u.shortCode == code) = false :=
      removeFirst_no_more code st.store hu
    have hfind := find?_code_eq_none_of_any_false _ code hgone
    refine ⟨by rw [hdel], ?_, ?_⟩
    · rw [hdel]
      simp [Service.Get, Repo.FindByShortCode, hfind, errorsNew]
    · rw [hdel]
      simp [Service.Delete, Repo.Delete, hgone, errorsNew]

/-- Claim C8 witness: deleting a present code succeeds, after which Get
and a second Delete on that code both fail NotFound; deleting a missing
code fails NotFound. -/
theorem claim_C8_witness :
    ((Service.Delete "abc123" none
        (⟨[⟨"1", "https://t.com", "abc123", 0, 0, 0⟩], 0⟩ : St)).1 = none ∧
     (∃ e, (Service.Get "abc123" none (Service.Delete "abc123" none
        (⟨[⟨"1", "https://t.com", "abc123", 0, 0, 0⟩], 0⟩ : St)).2).err = some e ∧
       e.msg = Domain.ErrNotFound) ∧
     (∃ e, (Service.Delete "abc123" none (Service.Delete "abc123" none
        (⟨[⟨"1", "https://t.com", "abc123", 0, 0, 0⟩], 0⟩ : St)).2).1 = some e ∧
       e.msg = Domain.ErrNotFound)) ∧
    (∃ e, (Service.Delete "nosuch" none
        (⟨[⟨"1", "https://t.com", "abc123", 0, 0, 0⟩], 0⟩ : St)).1 = some e ∧
      e.msg = Domain.ErrNotFound) :=
  ⟨(claim_C8_delete_idempotent "abc123"
      ⟨[⟨"1", "https://t.com", "abc123", 0, 0, 0⟩], 0⟩
      (by simp [uniqueCodes, codesOf])).2 (by decide),
   (claim_C8_delete_idempotent "nosuch"
      ⟨[⟨"1", "https://t.com", "abc123", 0, 0, 0⟩], 0⟩
      (by simp [uniqueCodes, codesOf])).1 (by decide)⟩

end Bitly
